import Mathlib

/-!
Shallow embedding of the vm_manager control plane (FastAPI handlers in
src/app/main.py, the LocalOperator in src/app/operator.py, the
NetworkManager in src/app/network_manager.py, the LocalObserver in
src/app/observer.py and the MetadataRequestHandler in
src/app/metadata_service.py), together with proofs of the specification
claims about them.  Inventory rows keep the Python field names; the
string constants ("available", "attached", "running", ...) are the
literal values the code stores.
-/

namespace VMan

/-- Row of the vms table (src/app/models.py, class VM). -/
structure VMRow where
  id : String
  template_name : String
  state : String
  local_ip : Option String
deriving Repr, DecidableEq

/-- Row of the disks table (src/app/models.py, class Disk). -/
structure DiskRow where
  id : String
  size : Nat
  mount_point : Option String
  state : String
  vm_id : Option String
deriving Repr, DecidableEq

/-- The relational inventory visible to the HTTP handlers. -/
structure Inventory where
  vms : List VMRow
  disks : List DiskRow
deriving Repr, DecidableEq

/-- db.query(models.VM).filter(models.VM.id == vm_id).first() -/
def findVM (inv : Inventory) (vmId : String) : Option VMRow :=
  inv.vms.find? (fun v => v.id == vmId)

/-- db.query(models.Disk).filter(models.Disk.id == disk_id).first() -/
def findDisk (inv : Inventory) (diskId : String) : Option DiskRow :=
  inv.disks.find? (fun d => d.id == diskId)

/-- Mutating the unique row with a given primary key: SQLAlchemy updates
the fetched row object in place; with unique ids this equals mapping the
update over the list. -/
def updateDisk (inv : Inventory) (diskId : String) (f : DiskRow → DiskRow) : Inventory :=
  { inv with disks := inv.disks.map (fun d => if d.id == diskId then f d else d) }

/-- Truthiness of an optional string in Python: None and "" are falsy. -/
def strOptFalsy : Option String → Bool
  | none => true
  | some s => s == ""

/-- Python `x or dflt` on an optional string: the default is used when x
is None or the empty string (both falsy). -/
def strOptOr (o : Option String) (dflt : String) : String :=
  match o with
  | none => dflt
  | some s => if s = "" then dflt else s

/-- Request body of POST /disks/attach: the handler receives a plain
dict; it reads only the key "vm_id" (src/app/main.py line 543).  A
caller may also send "mount_point"; the handler never reads it. -/
structure AttachPayload where
  vm_id : Option String
  mount_point : Option String
deriving Repr, DecidableEq

/-- LocalOperator.delete_disk_image (src/app/operator.py lines 269-285):
in dry-run mode it only logs; otherwise a missing file is an
OperatorError and an existing file is unlinked. -/
def delete_disk_image (dryRun fileExists : Bool) : Except String Unit :=
  if dryRun then Except.ok ()
  else if fileExists then Except.ok ()
  else Except.error "Disk image not found"

/-- POST /disks/AttachPayload handler attach_disk (src/app/main.py lines
541-577).  opOk models whether the QMP hot-plug call
LocalOperator.attach_disk succeeds; on failure the handler answers 400
and commits nothing.  Returns (HTTP status, post-state). -/
def attach_disk (inv : Inventory) (diskId : String) (payload : AttachPayload)
    (opOk : Bool) : Nat × Inventory :=
  if strOptFalsy payload.vm_id then (400, inv)
  else
    match findDisk inv diskId with
    | none => (404, inv)
    | some disk =>
      if disk.state = "attached" then (400, inv)
      else
        match findVM inv (payload.vm_id.getD "") with
        | none => (404, inv)
        | some vm =>
          if vm.state ≠ "running" then (400, inv)
          else
            if opOk then
              (200, updateDisk inv diskId (fun d =>
                { d with vm_id := some (payload.vm_id.getD ""), state := "attached",
                         mount_point := some (strOptOr disk.mount_point "/dev/xvdb") }))
            else (400, inv)

/-- Clearing a disk row on detach: vm_id = None, state = "available",
mount_point = None. -/
def clearDiskRow (d : DiskRow) : DiskRow :=
  { d with vm_id := none, state := "available", mount_point := none }

/-- POST /disks/detach handler detach_disk (src/app/main.py lines
580-614).  opOk models whether LocalOperator.detach_disk (QMP
hot-unplug) succeeds. -/
def detach_disk (inv : Inventory) (diskId : String) (opOk : Bool) : Nat × Inventory :=
  match findDisk inv diskId with
  | none => (404, inv)
  | some disk =>
    if disk.state ≠ "attached" then (400, inv)
    else if strOptFalsy disk.vm_id then (400, inv)
    else
      match findVM inv (disk.vm_id.getD "") with
      | some vm =>
        if vm.state = "running" then
          if opOk then (200, updateDisk inv diskId clearDiskRow)
          else (400, inv)
        else (200, updateDisk inv diskId clearDiskRow)
      | none => (200, updateDisk inv diskId clearDiskRow)

/-- DELETE /vms handler delete_vm (src/app/main.py lines 340-362): a
force-stop error is logged and swallowed, every disk whose vm_id
references the VM is reset to available/None/None, and the VM row is
deleted. -/
def delete_vm (inv : Inventory) (vmId : String) : Nat × Inventory :=
  match findVM inv vmId with
  | none => (404, inv)
  | some _ =>
    (204, { vms := inv.vms.filter (fun v => v.id ≠ vmId),
            disks := inv.disks.map (fun d =>
              if d.vm_id == some vmId then clearDiskRow d else d) })

/-- POST /disks handler create_disk (src/app/main.py lines 472-501):
opOk models LocalOperator.create_disk_image; on success a fresh row is
inserted with state "available" and no vm_id. -/
def create_disk (inv : Inventory) (newId : String) (size : Nat)
    (mountPoint : Option String) (opOk : Bool) : Nat × Inventory :=
  if opOk then
    (201, { inv with disks := inv.disks ++
      [{ id := newId, size := size, mount_point := mountPoint,
         state := "available", vm_id := none }] })
  else (400, inv)

/-- DELETE /disks handler delete_disk (src/app/main.py lines 518-538).
The operator call is delete_disk_image with the image file at
storage/disks/id.qcow2; fileExists says whether that file is present. -/
def delete_disk (inv : Inventory) (diskId : String) (dryRun fileExists : Bool) :
    Nat × Inventory :=
  match findDisk inv diskId with
  | none => (404, inv)
  | some disk =>
    if disk.state = "attached" then (400, inv)
    else
      match delete_disk_image dryRun fileExists with
      | Except.error _ => (400, inv)
      | Except.ok _ =>
        (204, { inv with disks := inv.disks.filter (fun d => d.id ≠ diskId) })

/-- Disk invariant of the data model: state = "attached" iff vm_id is
non-null. -/
def diskInv (inv : Inventory) : Prop :=
  ∀ d ∈ inv.disks, (d.state = "attached" ↔ d.vm_id ≠ none)

instance (inv : Inventory) : Decidable (diskInv inv) := by
  unfold diskInv
  exact List.decidableBAll _ _

theorem clearDiskRow_ok (d : DiskRow) :
    ((clearDiskRow d).state = "attached" ↔ (clearDiskRow d).vm_id ≠ none) := by
  constructor
  · intro h
    have h2 : ("available" : String) = "attached" := h
    exact absurd h2 (by decide)
  · intro h
    exact absurd rfl h

theorem diskInv_updateDisk (inv : Inventory) (h : diskInv inv) (diskId : String)
    (f : DiskRow → DiskRow)
    (hf : ∀ d, ((f d).state = "attached" ↔ (f d).vm_id ≠ none)) :
    diskInv (updateDisk inv diskId f) := by
  intro d hd
  simp only [updateDisk, List.mem_map] at hd
  obtain ⟨d0, hd0, rfl⟩ := hd
  by_cases hid : (d0.id == diskId) = true
  · rw [if_pos hid]
    exact hf d0
  · rw [if_neg hid]
    exact h d0 hd0

theorem attach_disk_preserves (inv : Inventory) (h : diskInv inv)
    (diskId : String) (payload : AttachPayload) (opOk : Bool) :
    diskInv (attach_disk inv diskId payload opOk).2 := by
  unfold attach_disk
  split
  · exact h
  · split
    · exact h
    · split
      · exact h
      · split
        · exact h
        · split
          · exact h
          · split
            · apply diskInv_updateDisk inv h
              intro d
              simp
            · exact h

theorem detach_disk_preserves (inv : Inventory) (h : diskInv inv)
    (diskId : String) (opOk : Bool) :
    diskInv (detach_disk inv diskId opOk).2 := by
  unfold detach_disk
  split
  · exact h
  · split
    · exact h
    · split
      · exact h
      · split
        · split
          · split
            · exact diskInv_updateDisk inv h diskId clearDiskRow clearDiskRow_ok
            · exact h
          · exact diskInv_updateDisk inv h diskId clearDiskRow clearDiskRow_ok
        · exact diskInv_updateDisk inv h diskId clearDiskRow clearDiskRow_ok

theorem delete_vm_preserves (inv : Inventory) (h : diskInv inv) (vmId : String) :
    diskInv (delete_vm inv vmId).2 := by
  unfold delete_vm
  split
  · exact h
  · intro d hd
    simp only [List.mem_map] at hd
    obtain ⟨d0, hd0, rfl⟩ := hd
    by_cases hid : (d0.vm_id == some vmId) = true
    · rw [if_pos hid]
      exact clearDiskRow_ok d0
    · rw [if_neg hid]
      exact h d0 hd0

theorem create_disk_preserves (inv : Inventory) (h : diskInv inv)
    (newId : String) (size : Nat) (mp : Option String) (opOk : Bool) :
    diskInv (create_disk inv newId size mp opOk).2 := by
  unfold create_disk
  split
  · intro d hd
    simp only [List.mem_append, List.mem_singleton] at hd
    rcases hd with hd | rfl
    · exact h d hd
    · constructor
      · intro hc
        have hc2 : ("available" : String) = "attached" := hc
        exact absurd hc2 (by decide)
      · intro hc
        exact absurd rfl hc
  · exact h

theorem delete_disk_preserves (inv : Inventory) (h : diskInv inv)
    (diskId : String) (dryRun fileExists : Bool) :
    diskInv (delete_disk inv diskId dryRun fileExists).2 := by
  unfold delete_disk
  split
  · exact h
  · split
    · exact h
    · split
      · exact h
      · intro d hd
        exact h d (List.mem_of_mem_filter hd)

theorem attach_disk_200 (inv : Inventory) (diskId : String)
    (payload : AttachPayload) (opOk : Bool)
    (h200 : (attach_disk inv diskId payload opOk).1 = 200) :
    ∀ d ∈ (attach_disk inv diskId payload opOk).2.disks,
      d.id = diskId → d.state = "attached" ∧ d.vm_id ≠ none := by
  revert h200
  unfold attach_disk
  split
  · intro h200
    simp at h200
  · split
    · intro h200
      simp at h200
    · split
      · intro h200
        simp at h200
      · split
        · intro h200
          simp at h200
        · split
          · intro h200
            simp at h200
          · split
            · intro _ d hd hid
              simp only [updateDisk, List.mem_map] at hd
              obtain ⟨d0, _, rfl⟩ := hd
              by_cases h0 : (d0.id == diskId) = true
              · rw [if_pos h0]
                exact ⟨rfl, by simp⟩
              · rw [if_neg h0] at hid ⊢
                exact absurd (beq_iff_eq.mpr hid) h0
            · intro h200
              simp at h200

theorem detach_disk_200 (inv : Inventory) (diskId : String) (opOk : Bool)
    (h200 : (detach_disk inv diskId opOk).1 = 200) :
    ∀ d ∈ (detach_disk inv diskId opOk).2.disks,
      d.id = diskId →
        d.state = "available" ∧ d.vm_id = none ∧ d.mount_point = none := by
  have hclear : ∀ d ∈ (updateDisk inv diskId clearDiskRow).disks,
      d.id = diskId →
        d.state = "available" ∧ d.vm_id = none ∧ d.mount_point = none := by
    intro d hd hid
    simp only [updateDisk, List.mem_map] at hd
    obtain ⟨d0, _, rfl⟩ := hd
    by_cases h0 : (d0.id == diskId) = true
    · rw [if_pos h0]
      exact ⟨rfl, rfl, rfl⟩
    · rw [if_neg h0] at hid
      exact absurd (beq_iff_eq.mpr hid) h0
  revert h200
  unfold detach_disk
  split
  · intro h200
    simp at h200
  · split
    · intro h200
      simp at h200
    · split
      · intro h200
        simp at h200
      · split
        · split
          · split
            · intro _
              exact hclear
            · intro h200
              simp at h200
          · intro _
            exact hclear
        · intro _
          exact hclear

theorem delete_vm_204 (inv : Inventory) (vmId : String)
    (h204 : (delete_vm inv vmId).1 = 204) :
    ∀ d ∈ inv.disks, d.vm_id = some vmId →
      clearDiskRow d ∈ (delete_vm inv vmId).2.disks := by
  revert h204
  unfold delete_vm
  split
  · intro h204
    simp at h204
  · intro _ d hd hvm
    have heq : (fun d : DiskRow =>
        if d.vm_id == some vmId then clearDiskRow d else d) d = clearDiskRow d := by
      show (if d.vm_id == some vmId then clearDiskRow d else d) = clearDiskRow d
      rw [if_pos (beq_iff_eq.mpr hvm)]
    exact heq ▸ List.mem_map_of_mem _ hd

/-- C1: for every Disk row, state = attached iff vm_id is non-null, and
every disk-mutating API operation preserves this invariant; moreover a
successful attach leaves the disk attached with a non-null vm_id, a
successful detach leaves it available with vm_id and mount_point null,
and deleting a VM resets every disk referencing it to
available/null/null. -/
theorem vman_c1_disk_state_invariant (inv : Inventory) (h : diskInv inv) :
    (∀ diskId payload opOk, diskInv (attach_disk inv diskId payload opOk).2) ∧
    (∀ diskId opOk, diskInv (detach_disk inv diskId opOk).2) ∧
    (∀ vmId, diskInv (delete_vm inv vmId).2) ∧
    (∀ newId size mp opOk, diskInv (create_disk inv newId size mp opOk).2) ∧
    (∀ diskId dryRun fileExists,
        diskInv (delete_disk inv diskId dryRun fileExists).2) ∧
    (∀ diskId payload opOk, (attach_disk inv diskId payload opOk).1 = 200 →
        ∀ d ∈ (attach_disk inv diskId payload opOk).2.disks,
          d.id = diskId → d.state = "attached" ∧ d.vm_id ≠ none) ∧
    (∀ diskId opOk, (detach_disk inv diskId opOk).1 = 200 →
        ∀ d ∈ (detach_disk inv diskId opOk).2.disks,
          d.id = diskId →
            d.state = "available" ∧ d.vm_id = none ∧ d.mount_point = none) ∧
    (∀ vmId, (delete_vm inv vmId).1 = 204 →
        ∀ d ∈ inv.disks, d.vm_id = some vmId →
          clearDiskRow d ∈ (delete_vm inv vmId).2.disks) := by
  refine ⟨fun diskId payload opOk => attach_disk_preserves inv h diskId payload opOk,
          fun diskId opOk => detach_disk_preserves inv h diskId opOk,
          fun vmId => delete_vm_preserves inv h vmId,
          fun newId size mp opOk => create_disk_preserves inv h newId size mp opOk,
          fun diskId dr fe => delete_disk_preserves inv h diskId dr fe,
          fun diskId payload opOk => attach_disk_200 inv diskId payload opOk,
          fun diskId opOk => detach_disk_200 inv diskId opOk,
          fun vmId => delete_vm_204 inv vmId⟩

/-- Concrete running VM row used by witnesses. -/
def vm1Ex : VMRow :=
  { id := "vm1", template_name := "small", state := "running", local_ip := none }

/-- Concrete available disk row used by witnesses. -/
def d1Ex : DiskRow :=
  { id := "d1", size := 10, mount_point := none, state := "available", vm_id := none }

/-- Concrete inventory used by several witnesses: one running VM and one
available disk. -/
def invEx : Inventory := { vms := [vm1Ex], disks := [d1Ex] }

/-- Witness for C1 at a concrete inventory. -/
theorem vman_c1_disk_state_invariant_witness :
    diskInv invEx ∧
    diskInv (attach_disk invEx "d1" ⟨some "vm1", none⟩ true).2 :=
  ⟨by decide, (vman_c1_disk_state_invariant invEx (by decide)).1 "d1" ⟨some "vm1", none⟩ true⟩

theorem find?_map_update (l : List DiskRow) (diskId : String) (f : DiskRow → DiskRow)
    (hf : ∀ d, (f d).id = d.id) :
    (l.map (fun d => if d.id == diskId then f d else d)).find? (fun d => d.id == diskId)
      = (l.find? (fun d => d.id == diskId)).map f := by
  induction l with
  | nil => rfl
  | cons a t ih =>
    by_cases h : (a.id == diskId) = true
    · have h2 : ((f a).id == diskId) = true := by rw [hf a]; exact h
      simp [List.find?, h2, h]
    · have h3 : (a.id == diskId) = false := by
        cases hb : (a.id == diskId) with
        | true => exact absurd hb h
        | false => rfl
      simp only [List.map_cons, List.find?, h3, Bool.false_eq_true, if_false]
      exact ih

theorem findDisk_updateDisk (inv : Inventory) (diskId : String)
    (f : DiskRow → DiskRow) (hf : ∀ d, (f d).id = d.id) :
    findDisk (updateDisk inv diskId f) diskId = (findDisk inv diskId).map f :=
  find?_map_update inv.disks diskId f hf

/-- C4 (amended): attaching an available disk to a running VM succeeds
with the disk set to attached/vm_id and a mount point that is the disk
row's stored default if that is set and non-empty, else /dev/xvdb
(python `or` treats the empty string like None); any mount point
supplied in the request body is ignored. -/
theorem vman_c4_attach_mount_point (inv : Inventory) (diskId vmId : String)
    (payload : AttachPayload) (disk : DiskRow) (vm : VMRow)
    (hpv : payload.vm_id = some vmId) (hne : vmId ≠ "")
    (hd : findDisk inv diskId = some disk) (hds : disk.state = "available")
    (hv : findVM inv vmId = some vm) (hvs : vm.state = "running") :
    (attach_disk inv diskId payload true).1 = 200 ∧
    findDisk (attach_disk inv diskId payload true).2 diskId =
      some { disk with
              vm_id := some vmId,
              state := "attached",
              mount_point := some (strOptOr disk.mount_point "/dev/xvdb") } := by
  have h1 : strOptFalsy payload.vm_id = false := by
    rw [hpv]
    simp [strOptFalsy, hne]
  have hne2 : ¬ disk.state = "attached" := by
    rw [hds]
    decide
  have hvr : ¬ vm.state ≠ "running" := by
    rw [hvs]
    simp
  have key : attach_disk inv diskId payload true =
      (200, updateDisk inv diskId (fun d =>
        { d with vm_id := some (payload.vm_id.getD ""), state := "attached",
                 mount_point := some (strOptOr disk.mount_point "/dev/xvdb") })) := by
    unfold attach_disk
    rw [hpv] at h1 ⊢
    simp only [h1, Bool.false_eq_true, if_false, hd, Option.getD_some, hv,
      if_neg hne2, if_neg hvr, if_pos]
  have key2 : (attach_disk inv diskId payload true).2 =
      updateDisk inv diskId (fun d =>
        { d with vm_id := some (payload.vm_id.getD ""), state := "attached",
                 mount_point := some (strOptOr disk.mount_point "/dev/xvdb") }) := by
    rw [key]
  constructor
  · rw [key]
  · have hfind := findDisk_updateDisk inv diskId
      (fun d => { d with
                  vm_id := some (payload.vm_id.getD ""),
                  state := "attached",
                  mount_point := some (strOptOr disk.mount_point "/dev/xvdb") })
      (fun d => rfl)
    rw [key2, hfind, hd, hpv]
    rfl

/-- Witness for C4 at the concrete inventory invEx. -/
theorem vman_c4_attach_mount_point_witness :
    (attach_disk invEx "d1" ⟨some "vm1", none⟩ true).1 = 200 ∧
    findDisk (attach_disk invEx "d1" ⟨some "vm1", none⟩ true).2 "d1" =
      some { d1Ex with
              vm_id := some "vm1",
              state := "attached",
              mount_point := some (strOptOr d1Ex.mount_point "/dev/xvdb") } :=
  vman_c4_attach_mount_point invEx "d1" "vm1" ⟨some "vm1", none⟩ d1Ex vm1Ex
    rfl (by decide) (by decide) rfl (by decide) rfl

/-- Disk row with an empty-string stored mount point (storable: POST
/disks validates nothing about mount_point). -/
def dEmptyEx : DiskRow :=
  { id := "d2", size := 10, mount_point := some "", state := "available", vm_id := none }

/-- Inventory with a running VM and the empty-mount-point disk. -/
def invEx2 : Inventory := { vms := [vm1Ex], disks := [dEmptyEx] }

/-- Counterexample to C4 as stated, in both directions the claim gets
the mount point wrong: (i) the caller supplies mount_point /dev/xvdc in
the request body and the stored result is /dev/xvdb — the handler never
reads the request body beyond vm_id; (ii) with a stored default of ""
the claim predicts the stored default "" but python `or` discards the
falsy empty string and the code stores /dev/xvdb. -/
theorem vman_c4_counterexample :
    (attach_disk invEx "d1" ⟨some "vm1", some "/dev/xvdc"⟩ true).1 = 200 ∧
    (findDisk (attach_disk invEx "d1" ⟨some "vm1", some "/dev/xvdc"⟩ true).2 "d1").map
        (fun d => d.mount_point) = some (some "/dev/xvdb") ∧
    (findDisk (attach_disk invEx "d1" ⟨some "vm1", some "/dev/xvdc"⟩ true).2 "d1").map
        (fun d => d.mount_point) ≠ some (some "/dev/xvdc") ∧
    (attach_disk invEx2 "d2" ⟨some "vm1", none⟩ true).1 = 200 ∧
    dEmptyEx.mount_point = some "" ∧
    (findDisk (attach_disk invEx2 "d2" ⟨some "vm1", none⟩ true).2 "d2").map
        (fun d => d.mount_point) = some (some "/dev/xvdb") ∧
    (findDisk (attach_disk invEx2 "d2" ⟨some "vm1", none⟩ true).2 "d2").map
        (fun d => d.mount_point) ≠ some (some "") := by
  refine ⟨by decide, by decide, by decide, by decide, by decide, by decide, by decide⟩

/-- C10: DELETE /disks on an available disk whose qcow2 image file is
absent, with the operator not in dry-run mode, returns 400 and leaves
the inventory (in particular the disk row) unchanged. -/
theorem vman_c10_delete_disk_missing_file (inv : Inventory) (diskId : String)
    (disk : DiskRow) (hd : findDisk inv diskId = some disk)
    (hds : disk.state = "available") :
    delete_disk inv diskId false false = (400, inv) ∧
    findDisk (delete_disk inv diskId false false).2 diskId = some disk := by
  have hne2 : ¬ disk.state = "attached" := by
    rw [hds]
    decide
  have key : delete_disk inv diskId false false = (400, inv) := by
    unfold delete_disk
    simp only [hd, if_neg hne2]
    rfl
  exact ⟨key, by rw [key]; exact hd⟩

/-- Witness for C10 at the concrete inventory invEx. -/
theorem vman_c10_delete_disk_missing_file_witness :
    delete_disk invEx "d1" false false = (400, invEx) ∧
    findDisk (delete_disk invEx "d1" false false).2 "d1" = some d1Ex :=
  vman_c10_delete_disk_missing_file invEx "d1" d1Ex (by decide) rfl

/-- Static network configuration of NetworkManager.__init__
(src/app/network_manager.py lines 34-67), with IPv4 addresses as
numbers.  gateway is the configured gateway, defaulting to
network + 1. -/
structure NetConfig where
  network : Nat
  prefixlen : Nat
  gateway : Nat
deriving Repr, DecidableEq

/-- Broadcast address of the subnet. -/
def broadcast (c : NetConfig) : Nat :=
  c.network + 2 ^ (32 - c.prefixlen) - 1

/-- Embedding of python ipaddress subnet.hosts() for prefixes up to /30:
the addresses strictly between the network and broadcast addresses, in
ascending numeric order. -/
def hostsList (c : NetConfig) : List Nat :=
  List.range' (c.network + 1) (2 ^ (32 - c.prefixlen) - 2)

/-- The reserved set built by NetworkManager.__init__ (lines 59-63): the
network address, network + 1 (labelled gateway), and the broadcast
address.  Note the code reserves network + 1, not self.gateway. -/
def reservedList (c : NetConfig) : List Nat :=
  [c.network, c.network + 1, broadcast c]

/-- Python set.add on the allocated-IP set. -/
def insertIp (ip : Nat) (allocated : List Nat) : List Nat :=
  if allocated.contains ip then allocated else ip :: allocated

/-- NetworkManager.release_ip (lines 164-172): remove if present,
idempotent. -/
def release_ip (ip : Nat) (allocated : List Nat) : List Nat :=
  allocated.filter (fun x => x ≠ ip)

/-- NetworkManager.allocate_ip (lines 142-162): scan subnet.hosts() in
ascending order for the first address that is neither reserved nor
allocated; insert and return it, or fail (None = RuntimeError) when the
subnet is exhausted. -/
def allocate_ip (c : NetConfig) (allocated : List Nat) : Option (Nat × List Nat) :=
  match (hostsList c).find? (fun ip =>
      !(reservedList c).contains ip && !allocated.contains ip) with
  | some ip => some (ip, insertIp ip allocated)
  | none => none

/-- State of the IP pool together with the per-VM ip.txt files (the pool
itself lives only in NetworkManager memory). -/
structure NetSys where
  allocated : List Nat
  ipFiles : List (String × Nat)
deriving Repr, DecidableEq

/-- Content of vm_dir/ip.txt for a VM, if the file exists. -/
def fileLookup (files : List (String × Nat)) (vm : String) : Option Nat :=
  (files.find? (fun p => p.1 == vm)).map (fun p => p.2)

/-- Writing vm_dir/ip.txt. -/
def fileSet (files : List (String × Nat)) (vm : String) (ip : Nat) :
    List (String × Nat) :=
  (vm, ip) :: files.filter (fun p => p.1 ≠ vm)

/-- The network-acquisition step of LocalOperator.start_vm
(src/app/operator.py lines 390-416): reuse the IP recorded in ip.txt if
it is not currently allocated (adding it to allocated_ips directly),
else allocate fresh; persist the resulting IP in ip.txt.  On allocation
failure the exception handler falls back to user-mode networking and the
pool and files are left unchanged. -/
def startNet (c : NetConfig) (s : NetSys) (vm : String) : NetSys :=
  match fileLookup s.ipFiles vm with
  | some prev =>
    if s.allocated.contains prev then
      match allocate_ip c s.allocated with
      | some (ip, alloc2) => ⟨alloc2, fileSet s.ipFiles vm ip⟩
      | none => s
    else ⟨insertIp prev s.allocated, fileSet s.ipFiles vm prev⟩
  | none =>
    match allocate_ip c s.allocated with
    | some (ip, alloc2) => ⟨alloc2, fileSet s.ipFiles vm ip⟩
    | none => s

/-- The network-release step of LocalOperator.stop_vm (lines 545-559):
if ip.txt exists, release the IP and delete the file. -/
def stopNet (s : NetSys) (vm : String) : NetSys :=
  match fileLookup s.ipFiles vm with
  | some ip => ⟨release_ip ip s.allocated, s.ipFiles.filter (fun p => p.1 ≠ vm)⟩
  | none => s

/-- Controller restart: allocated_ips is in-memory only and starts
empty; ip.txt files persist on disk. -/
def restartPool (s : NetSys) : NetSys := ⟨[], s.ipFiles⟩

/-- States of the pool reachable from a fresh install through the code
paths that mutate it. -/
inductive ReachableNet (c : NetConfig) : NetSys → Prop
  | init : ReachableNet c ⟨[], []⟩
  | start (s : NetSys) (vm : String) : ReachableNet c s → ReachableNet c (startNet c s vm)
  | stop (s : NetSys) (vm : String) : ReachableNet c s → ReachableNet c (stopNet s vm)
  | restart (s : NetSys) : ReachableNet c s → ReachableNet c (restartPool s)

/-- An address is a host of the subnet and not in the reserved set the
code builds. -/
def validIp (c : NetConfig) (ip : Nat) : Prop :=
  ip ∈ hostsList c ∧ ip ∉ reservedList c

/-- Pool invariant: every allocated IP is a non-reserved host address,
no duplicates, and every ip.txt records a non-reserved host address. -/
def netInv (c : NetConfig) (s : NetSys) : Prop :=
  (∀ ip ∈ s.allocated, validIp c ip) ∧ s.allocated.Nodup ∧
  (∀ p ∈ s.ipFiles, validIp c p.2)

instance (c : NetConfig) (ip : Nat) : Decidable (validIp c ip) := by
  unfold validIp
  infer_instance

instance (c : NetConfig) (s : NetSys) : Decidable (netInv c s) := by
  unfold netInv
  exact instDecidableAnd

theorem containsTrue (l : List Nat) (a : Nat) : l.contains a = true ↔ a ∈ l := by
  simp only [List.elem_eq_mem, decide_eq_true_eq]

theorem containsFalse (l : List Nat) (a : Nat) : l.contains a = false ↔ a ∉ l := by
  simp only [List.elem_eq_mem, decide_eq_false_iff_not]

theorem allocPredTrue (c : NetConfig) (allocated : List Nat) (x : Nat) :
    (!(reservedList c).contains x && !allocated.contains x) = true ↔
      x ∉ reservedList c ∧ x ∉ allocated := by
  rw [Bool.and_eq_true, Bool.not_eq_true', Bool.not_eq_true',
    containsFalse, containsFalse]

theorem find?_min_of_pairwise {l : List Nat} {p : Nat → Bool} {r : Nat}
    (hl : l.Pairwise (· < ·)) (h : l.find? p = some r) :
    ∀ x ∈ l, p x = true → r ≤ x := by
  induction l with
  | nil => cases h
  | cons a t ih =>
    rw [List.pairwise_cons] at hl
    cases hp : p a with
    | true =>
      rw [List.find?_cons_of_pos _ hp] at h
      cases h
      intro x hx _
      rw [List.mem_cons] at hx
      rcases hx with rfl | hx
      · exact le_refl _
      · exact le_of_lt (hl.1 x hx)
    | false =>
      rw [List.find?_cons_of_neg _ (by simp [hp])] at h
      intro x hx hpx
      rw [List.mem_cons] at hx
      rcases hx with rfl | hx
      · rw [hp] at hpx
        cases hpx
      · exact ih hl.2 h x hx hpx

theorem hostsPairwise (c : NetConfig) : (hostsList c).Pairwise (· < ·) := by
  unfold hostsList
  exact List.pairwise_lt_range' _ _

theorem allocate_ip_some_spec (c : NetConfig) (allocated : List Nat)
    (ip : Nat) (alloc2 : List Nat)
    (h : allocate_ip c allocated = some (ip, alloc2)) :
    validIp c ip ∧ ip ∉ allocated ∧ alloc2 = ip :: allocated ∧
      ∀ x ∈ hostsList c, x ∉ reservedList c → x ∉ allocated → ip ≤ x := by
  unfold allocate_ip at h
  cases hf : (hostsList c).find? (fun x =>
      !(reservedList c).contains x && !allocated.contains x) with
  | none =>
    rw [hf] at h
    cases h
  | some r =>
    rw [hf] at h
    simp only [Option.some.injEq, Prod.mk.injEq] at h
    obtain ⟨rfl, rfl⟩ := h
    have hfind := List.find?_some hf
    have hpr2 : r ∉ reservedList c ∧ r ∉ allocated := by
      simp at hfind
      exact hfind
    have hmem := List.mem_of_find?_eq_some hf
    refine ⟨⟨hmem, hpr2.1⟩, hpr2.2, ?_, ?_⟩
    · unfold insertIp
      rw [if_neg (by rw [containsTrue]; exact hpr2.2)]
    · intro x hx hxr hxa
      refine find?_min_of_pairwise (hostsPairwise c) hf x hx ?_
      exact (allocPredTrue c allocated x).mpr ⟨hxr, hxa⟩

theorem allocate_ip_none_spec (c : NetConfig) (allocated : List Nat) :
    allocate_ip c allocated = none ↔
      ∀ x ∈ hostsList c, x ∈ reservedList c ∨ x ∈ allocated := by
  unfold allocate_ip
  cases hf : (hostsList c).find? (fun x =>
      !(reservedList c).contains x && !allocated.contains x) with
  | none =>
    constructor
    · intro _ x hx
      have hx2 := List.find?_eq_none.mp hf x hx
      by_cases h1 : x ∈ reservedList c
      · exact Or.inl h1
      · by_cases h2 : x ∈ allocated
        · exact Or.inr h2
        · exact absurd ((allocPredTrue c allocated x).mpr ⟨h1, h2⟩) hx2
    · intro _
      rfl
  | some r =>
    constructor
    · intro hcontra
      cases hcontra
    · intro hall
      have hfind := List.find?_some hf
      have hpr2 : r ∉ reservedList c ∧ r ∉ allocated := by
        simp at hfind
        exact hfind
      have hmem := List.mem_of_find?_eq_some hf
      rcases hall r hmem with hin | hin
      · exact (hpr2.1 hin).elim
      · exact (hpr2.2 hin).elim

theorem nodupInsert (r : Nat) (l : List Nat) (hn : l.Nodup) (hr : r ∉ l) :
    (r :: l).Nodup :=
  List.Pairwise.cons (fun y hy hxy => hr (by rw [hxy]; exact hy)) hn

theorem fileSet_valid (c : NetConfig) (files : List (String × Nat)) (vm : String)
    (ip : Nat) (hfiles : ∀ p ∈ files, validIp c p.2) (hip : validIp c ip) :
    ∀ p ∈ fileSet files vm ip, validIp c p.2 := by
  intro p hp
  simp only [fileSet, List.mem_cons] at hp
  rcases hp with rfl | hp
  · exact hip
  · exact hfiles p (List.mem_of_mem_filter hp)

theorem netInv_startNet (c : NetConfig) (s : NetSys) (vm : String)
    (h : netInv c s) : netInv c (startNet c s vm) := by
  obtain ⟨ha, hn, hfiles⟩ := h
  have hallocCase : ∀ ip alloc2, allocate_ip c s.allocated = some (ip, alloc2) →
      netInv c ⟨alloc2, fileSet s.ipFiles vm ip⟩ := by
    intro ip alloc2 hcall
    obtain ⟨hv, hnotin, heq, _⟩ := allocate_ip_some_spec c s.allocated ip alloc2 hcall
    subst heq
    refine ⟨?_, nodupInsert ip s.allocated hn hnotin, fileSet_valid c s.ipFiles vm ip hfiles hv⟩
    intro x hx
    rw [List.mem_cons] at hx
    rcases hx with rfl | hx
    · exact hv
    · exact ha x hx
  cases hl : fileLookup s.ipFiles vm with
  | some prev =>
    cases hc : s.allocated.contains prev with
    | true =>
      cases hcall : allocate_ip c s.allocated with
      | some pr =>
        obtain ⟨ip, alloc2⟩ := pr
        have hstep : startNet c s vm = ⟨alloc2, fileSet s.ipFiles vm ip⟩ := by
          simp only [startNet, hl, hc, if_true, hcall]
        rw [hstep]
        exact hallocCase ip alloc2 hcall
      | none =>
        have hstep : startNet c s vm = s := by
          simp only [startNet, hl, hc, if_true, hcall]
        rw [hstep]
        exact ⟨ha, hn, hfiles⟩
    | false =>
      have hprevMem : prev ∉ s.allocated := (containsFalse _ _).mp hc
      have hprevValid : validIp c prev := by
        unfold fileLookup at hl
        cases hf2 : s.ipFiles.find? (fun p => p.1 == vm) with
        | none =>
          rw [hf2] at hl
          cases hl
        | some q =>
          rw [hf2] at hl
          have hq := List.mem_of_find?_eq_some hf2
          have hq2 : q.2 = prev := by simpa using hl
          exact hq2 ▸ hfiles q hq
      have hstep : startNet c s vm =
          ⟨insertIp prev s.allocated, fileSet s.ipFiles vm prev⟩ := by
        simp only [startNet, hl, hc, Bool.false_eq_true, if_false]
      rw [hstep]
      have hins : insertIp prev s.allocated = prev :: s.allocated := by
        unfold insertIp
        rw [if_neg (by rw [containsTrue]; exact hprevMem)]
      rw [hins]
      refine ⟨?_, nodupInsert prev s.allocated hn hprevMem,
        fileSet_valid c s.ipFiles vm prev hfiles hprevValid⟩
      intro x hx
      rw [List.mem_cons] at hx
      rcases hx with rfl | hx
      · exact hprevValid
      · exact ha x hx
  | none =>
    cases hcall : allocate_ip c s.allocated with
    | some pr =>
      obtain ⟨ip, alloc2⟩ := pr
      have hstep : startNet c s vm = ⟨alloc2, fileSet s.ipFiles vm ip⟩ := by
        simp only [startNet, hl, hcall]
      rw [hstep]
      exact hallocCase ip alloc2 hcall
    | none =>
      have hstep : startNet c s vm = s := by
        simp only [startNet, hl, hcall]
      rw [hstep]
      exact ⟨ha, hn, hfiles⟩

theorem netInv_stopNet (c : NetConfig) (s : NetSys) (vm : String)
    (h : netInv c s) : netInv c (stopNet s vm) := by
  obtain ⟨ha, hn, hfiles⟩ := h
  cases hl : fileLookup s.ipFiles vm with
  | some ip =>
    have hstep : stopNet s vm =
        ⟨release_ip ip s.allocated, s.ipFiles.filter (fun p => p.1 ≠ vm)⟩ := by
      simp only [stopNet, hl]
    rw [hstep]
    refine ⟨?_, List.Pairwise.filter _ hn, ?_⟩
    · intro x hx
      exact ha x (List.mem_of_mem_filter hx)
    · intro p hp
      exact hfiles p (List.mem_of_mem_filter hp)
  | none =>
    have hstep : stopNet s vm = s := by
      simp only [stopNet, hl]
    rw [hstep]
    exact ⟨ha, hn, hfiles⟩


/-- C3 (amended): in every reachable pool state each allocated IP is a
host address of the subnet, outside the reserved set the code builds
(network address, network + 1, broadcast — the code reserves network + 1
as gateway regardless of the configured gateway), and appears at most
once; this is preserved by allocate_ip, release_ip and the start_vm
ip.txt-reuse path; allocate_ip returns the numerically lowest
non-reserved unallocated host, inserts it, and fails exactly when no
such host exists. -/
theorem vman_c3_ip_pool_invariant (c : NetConfig) :
    (∀ s, ReachableNet c s → netInv c s) ∧
    (∀ allocated ip alloc2, allocate_ip c allocated = some (ip, alloc2) →
        validIp c ip ∧ ip ∉ allocated ∧ alloc2 = ip :: allocated ∧
          ∀ x ∈ hostsList c, x ∉ reservedList c → x ∉ allocated → ip ≤ x) ∧
    (∀ allocated, allocate_ip c allocated = none ↔
        ∀ x ∈ hostsList c, x ∈ reservedList c ∨ x ∈ allocated) := by
  refine ⟨?_, allocate_ip_some_spec c, allocate_ip_none_spec c⟩
  intro s hs
  induction hs with
  | init =>
    exact ⟨fun x hx => absurd hx (List.not_mem_nil x), List.Pairwise.nil,
      fun p hp => absurd hp (List.not_mem_nil p)⟩
  | start s vm _ ih => exact netInv_startNet c s vm ih
  | stop s vm _ ih => exact netInv_stopNet c s vm ih
  | restart s _ ih =>
    exact ⟨fun x hx => absurd hx (List.not_mem_nil x), List.Pairwise.nil, ih.2.2⟩

/-- Network config of the counterexample: subnet 10.0.0.0/29 with the
configured gateway 10.0.0.3 (not the default first host). -/
def cexNetCfg : NetConfig :=
  { network := 167772160, prefixlen := 29, gateway := 167772163 }

/-- Witness for C3: the first allocation in the counterexample subnet. -/
theorem vman_c3_ip_pool_invariant_witness :
    validIp cexNetCfg 167772162 ∧ 167772162 ∉ ([] : List Nat) ∧
      ([167772162] : List Nat) = 167772162 :: [] ∧
      ∀ x ∈ hostsList cexNetCfg, x ∉ reservedList cexNetCfg →
        x ∉ ([] : List Nat) → 167772162 ≤ x :=
  (vman_c3_ip_pool_invariant cexNetCfg).2.1 [] 167772162 [167772162] (by decide)

/-- Counterexample to C3 as stated: with a configured gateway that is
not the first host, the second allocation returns the configured gateway
itself, so an allocated IP can equal the configured gateway. -/
theorem vman_c3_counterexample :
    allocate_ip cexNetCfg [] = some (167772162, [167772162]) ∧
    allocate_ip cexNetCfg [167772162] = some (167772163, [167772163, 167772162]) ∧
    cexNetCfg.gateway = 167772163 := by
  refine ⟨by decide, by decide, rfl⟩

/-- Issue record emitted by the Observer (src/app/observer.py,
CoherenceIssue dataclass). -/
structure CoherenceIssue where
  issue_type : String
  resource_id : String
  details : String
deriving Repr, DecidableEq

/-- Path of a disk image: storage/disks/id.qcow2. -/
def diskPath (storage id : String) : String :=
  storage ++ "/disks/" ++ id ++ ".qcow2"

/-- The missing_disk issue for a disk row. -/
def missingIssue (storage : String) (d : DiskRow) : CoherenceIssue :=
  ⟨"missing_disk", d.id, "Disk file not found: " ++ diskPath storage d.id⟩

/-- The disk_state_inconsistent issue for an attached row without VM. -/
def incNoneIssue (d : DiskRow) : CoherenceIssue :=
  ⟨"disk_state_inconsistent", d.id,
    "Disk state is \x27attached\x27 but vm_id is None"⟩

/-- The disk_state_inconsistent issue for an available row with a VM. -/
def incSomeIssue (d : DiskRow) : CoherenceIssue :=
  ⟨"disk_state_inconsistent", d.id,
    "Disk state is \x27available\x27 but attached to VM " ++ d.vm_id.getD ""⟩

/-- The orphan_disk issue for a file stem without inventory row. -/
def orphanDiskIssue (storage : String) (stem : String) : CoherenceIssue :=
  ⟨"orphan_disk", stem,
    "Disk file exists but not found in database: " ++ diskPath storage stem⟩

/-- Loop body of LocalObserver._check_disk_coherence (src/app/observer.py
lines 172-195): an if/elif/elif chain, so each row contributes at most
one issue, with the missing-file check first. -/
def diskRowIssue (storage : String) (fe : String → Bool) (d : DiskRow) :
    List CoherenceIssue :=
  if ¬ fe (diskPath storage d.id) then [missingIssue storage d]
  else if d.state = "attached" ∧ strOptFalsy d.vm_id then [incNoneIssue d]
  else if d.state = "available" ∧ ¬ strOptFalsy d.vm_id then [incSomeIssue d]
  else []

/-- The row loop of _check_disk_coherence, appending to the issues
accumulator as the Python for-loop does. -/
def diskChecksAcc (storage : String) (fe : String → Bool) :
    List DiskRow → List CoherenceIssue → List CoherenceIssue
  | [], acc => acc
  | d :: rest, acc => diskChecksAcc storage fe rest (acc ++ diskRowIssue storage fe d)

/-- The orphan-file loop of _check_disk_coherence (lines 197-208). -/
def orphanChecksAcc (storage : String) (rows : List DiskRow) :
    List String → List CoherenceIssue → List CoherenceIssue
  | [], acc => acc
  | stem :: rest, acc =>
    if rows.any (fun d => d.id == stem) then orphanChecksAcc storage rows rest acc
    else orphanChecksAcc storage rows rest (acc ++ [orphanDiskIssue storage stem])

/-- LocalObserver._check_disk_coherence (lines 154-214): row checks then,
when the disks directory exists, the orphan-file scan. -/
def check_disk_coherence (storage : String) (fe : String → Bool)
    (rows : List DiskRow) (stems : List String) (dirExists : Bool) :
    List CoherenceIssue :=
  if dirExists then orphanChecksAcc storage rows stems (diskChecksAcc storage fe rows [])
  else diskChecksAcc storage fe rows []

/-- The vm_state_mismatch issue for a running row without process. -/
def vmNotLiveIssue (vm : VMRow) : CoherenceIssue :=
  ⟨"vm_state_mismatch", vm.id,
    "DB state is \x27running\x27 but QEMU process not found"⟩

/-- The vm_state_mismatch issue for a non-running row with a process. -/
def vmLiveIssue (vm : VMRow) : CoherenceIssue :=
  ⟨"vm_state_mismatch", vm.id,
    "DB state is \x27" ++ vm.state ++ "\x27 but QEMU process is running"⟩

/-- The orphan_process issue. -/
def orphanProcIssue (vid : String) : CoherenceIssue :=
  ⟨"orphan_process", vid, "QEMU process running but VM not found in database"⟩

/-- Loop body of LocalObserver._check_vm_coherence (lines 120-136). -/
def vmRowIssue (runningIds : List String) (vm : VMRow) : List CoherenceIssue :=
  if vm.state = "running" ∧ ¬ runningIds.contains vm.id then [vmNotLiveIssue vm]
  else if vm.state ≠ "running" ∧ runningIds.contains vm.id then [vmLiveIssue vm]
  else []

/-- The VM row loop of _check_vm_coherence. -/
def vmChecksAcc (runningIds : List String) :
    List VMRow → List CoherenceIssue → List CoherenceIssue
  | [], acc => acc
  | vm :: rest, acc => vmChecksAcc runningIds rest (acc ++ vmRowIssue runningIds vm)

/-- The orphan-process loop of _check_vm_coherence (lines 138-146). -/
def orphanProcAcc (vms : List VMRow) :
    List String → List CoherenceIssue → List CoherenceIssue
  | [], acc => acc
  | vid :: rest, acc =>
    if vms.any (fun v => v.id == vid) then orphanProcAcc vms rest acc
    else orphanProcAcc vms rest (acc ++ [orphanProcIssue vid])

/-- LocalObserver._check_vm_coherence (lines 93-152). -/
def check_vm_coherence (vms : List VMRow) (runningIds : List String) :
    List CoherenceIssue :=
  orphanProcAcc vms runningIds (vmChecksAcc runningIds vms [])

/-- The observable environment a single Observer pass reads. -/
structure ObsEnv where
  storage : String
  fe : String → Bool
  vms : List VMRow
  runningIds : List String
  disks : List DiskRow
  diskFileStems : List String
  disksDirExists : Bool

/-- Mutable state of the Observer across passes. -/
structure ObserverState where
  last_issues : List CoherenceIssue
deriving Repr, DecidableEq

/-- LocalObserver.check_coherence (lines 80-91): VM checks, then disk
checks, then last_issues is replaced with the issues of this pass. -/
def check_coherence (env : ObsEnv) (o : ObserverState) :
    ObserverState × List CoherenceIssue :=
  (⟨check_vm_coherence env.vms env.runningIds ++
      check_disk_coherence env.storage env.fe env.disks env.diskFileStems
        env.disksDirExists⟩,
    check_vm_coherence env.vms env.runningIds ++
      check_disk_coherence env.storage env.fe env.disks env.diskFileStems
        env.disksDirExists)

theorem diskChecksAcc_eq (storage : String) (fe : String → Bool)
    (rows : List DiskRow) (acc : List CoherenceIssue) :
    diskChecksAcc storage fe rows acc =
      acc ++ rows.flatMap (diskRowIssue storage fe) := by
  induction rows generalizing acc with
  | nil => simp [diskChecksAcc]
  | cons d rest ih =>
    rw [diskChecksAcc, ih, List.flatMap_cons, List.append_assoc]

theorem orphanChecksAcc_mono (storage : String) (rows : List DiskRow)
    (stems : List String) (acc : List CoherenceIssue) :
    ∃ tail, orphanChecksAcc storage rows stems acc = acc ++ tail := by
  induction stems generalizing acc with
  | nil => exact ⟨[], by simp [orphanChecksAcc]⟩
  | cons stem rest ih =>
    rw [orphanChecksAcc]
    by_cases h : rows.any (fun d => d.id == stem) = true
    · rw [if_pos h]
      exact ih acc
    · rw [if_neg h]
      obtain ⟨tail, htail⟩ := ih (acc ++ [orphanDiskIssue storage stem])
      exact ⟨orphanDiskIssue storage stem :: tail, by rw [htail, List.append_assoc]; rfl⟩

theorem check_disk_coherence_sub (storage : String) (fe : String → Bool)
    (rows : List DiskRow) (stems : List String) (dirExists : Bool) :
    ∃ tail, check_disk_coherence storage fe rows stems dirExists =
      rows.flatMap (diskRowIssue storage fe) ++ tail := by
  unfold check_disk_coherence
  by_cases h : dirExists = true
  · rw [if_pos h]
    obtain ⟨tail, htail⟩ :=
      orphanChecksAcc_mono storage rows stems (diskChecksAcc storage fe rows [])
    rw [htail, diskChecksAcc_eq]
    exact ⟨tail, by simp⟩
  · rw [if_neg h, diskChecksAcc_eq]
    exact ⟨[], by simp⟩

/-- C9 (amended): each Observer pass replaces last_issues with exactly
the issues found in that pass; for each Disk row the if/elif chain emits
at most one issue — missing_disk when the image file is absent (also
when the row is in addition state-inconsistent: the state check is then
skipped), else disk_state_inconsistent when state=attached with vm_id
null or state=available with vm_id non-null. -/
theorem vman_c9_observer_disk_issues (env : ObsEnv) (o : ObserverState) :
    ((check_coherence env o).1.last_issues = (check_coherence env o).2) ∧
    (∀ d ∈ env.disks,
      (¬ env.fe (diskPath env.storage d.id) = true →
        missingIssue env.storage d ∈ (check_coherence env o).2 ∧
        diskRowIssue env.storage env.fe d = [missingIssue env.storage d]) ∧
      (env.fe (diskPath env.storage d.id) = true →
        d.state = "attached" → strOptFalsy d.vm_id = true →
        incNoneIssue d ∈ (check_coherence env o).2) ∧
      (env.fe (diskPath env.storage d.id) = true →
        d.state = "available" → strOptFalsy d.vm_id = false →
        incSomeIssue d ∈ (check_coherence env o).2)) := by
  have hmem : ∀ d ∈ env.disks, ∀ i ∈ diskRowIssue env.storage env.fe d,
      i ∈ (check_coherence env o).2 := by
    intro d hd i hi
    obtain ⟨tail, htail⟩ := check_disk_coherence_sub env.storage env.fe env.disks
      env.diskFileStems env.disksDirExists
    unfold check_coherence
    simp only [List.mem_append]
    right
    rw [htail]
    rw [List.mem_append]
    left
    rw [List.mem_flatMap]
    exact ⟨d, hd, hi⟩
  refine ⟨rfl, ?_⟩
  intro d hd
  refine ⟨?_, ?_, ?_⟩
  · intro hfe
    have hrow : diskRowIssue env.storage env.fe d = [missingIssue env.storage d] := by
      unfold diskRowIssue
      rw [if_pos (by simp [hfe])]
    refine ⟨hmem d hd _ ?_, hrow⟩
    rw [hrow]
    exact List.mem_singleton_self _
  · intro hfe hstate hvm
    have hrow : diskRowIssue env.storage env.fe d = [incNoneIssue d] := by
      unfold diskRowIssue
      rw [if_neg (by simp [hfe]), if_pos ⟨hstate, by simp [hvm]⟩]
    refine hmem d hd _ ?_
    rw [hrow]
    exact List.mem_singleton_self _
  · intro hfe hstate hvm
    have hrow : diskRowIssue env.storage env.fe d = [incSomeIssue d] := by
      unfold diskRowIssue
      rw [if_neg (by simp [hfe]), if_neg ?_, if_pos ⟨hstate, by simp [hvm]⟩]
      intro hcon
      rw [hstate] at hcon
      exact absurd hcon.1 (by decide)
    refine hmem d hd _ ?_
    rw [hrow]
    exact List.mem_singleton_self _

/-- Environment of the C9 witness and counterexample: one disk row that
is both missing its image file and state-inconsistent (attached with
vm_id null). -/
def cexObsEnv : ObsEnv :=
  { storage := "/var/lib/vman"
    fe := fun _ => false
    vms := []
    runningIds := []
    disks := [{ id := "d1", size := 10, mount_point := none,
                state := "attached", vm_id := none }]
    diskFileStems := []
    disksDirExists := true }

/-- Witness for C9: the pass over cexObsEnv reports the missing disk and
replaces last_issues. -/
theorem vman_c9_observer_disk_issues_witness :
    ((check_coherence cexObsEnv ⟨[]⟩).1.last_issues =
      (check_coherence cexObsEnv ⟨[]⟩).2) ∧
    (missingIssue cexObsEnv.storage
        { id := "d1", size := 10, mount_point := none,
          state := "attached", vm_id := none } ∈
      (check_coherence cexObsEnv ⟨[]⟩).2) :=
  ⟨(vman_c9_observer_disk_issues cexObsEnv ⟨[]⟩).1,
    (((vman_c9_observer_disk_issues cexObsEnv ⟨[]⟩).2
        { id := "d1", size := 10, mount_point := none,
          state := "attached", vm_id := none } (by decide)).1 (by decide)).1⟩

/-- Counterexample to C9 as stated: for a row both missing its file and
state-inconsistent, the pass emits only missing_disk — no
disk_state_inconsistent issue appears. -/
theorem vman_c9_counterexample :
    (check_coherence cexObsEnv ⟨[]⟩).2 =
      [⟨"missing_disk", "d1",
        "Disk file not found: /var/lib/vman/disks/d1.qcow2"⟩] ∧
    ((check_coherence cexObsEnv ⟨[]⟩).2.filter
      (fun i => i.issue_type == "disk_state_inconsistent")) = [] := by
  refine ⟨by decide, by decide⟩

/-- UTF-8 encoding of a unicode code point, as python str.encode. -/
def utf8Bytes (c : Nat) : List Nat :=
  if c < 128 then [c]
  else if c < 2048 then [192 + c / 64, 128 + c % 64]
  else if c < 65536 then [224 + c / 4096, 128 + c / 64 % 64, 128 + c % 64]
  else [240 + c / 262144, 128 + c / 4096 % 64, 128 + c / 64 % 64, 128 + c % 64]

/-- The UTF-8 bytes of a string (vm_id.encode() in the source). -/
def strBytes (s : String) : List Nat := s.data.flatMap (fun ch => utf8Bytes ch.toNat)

/-- The 64 MD5 sine constants of RFC 1321 (hashlib.md5). -/
def md5K : List Nat :=
  [3614090360, 3905402710, 606105819, 3250441966,
   4118548399, 1200080426, 2821735955, 4249261313,
   1770035416, 2336552879, 4294925233, 2304563134,
   1804603682, 4254626195, 2792965006, 1236535329,
   4129170786, 3225465664, 643717713, 3921069994,
   3593408605, 38016083, 3634488961, 3889429448,
   568446438, 3275163606, 4107603335, 1163531501,
   2850285829, 4243563512, 1735328473, 2368359562,
   4294588738, 2272392833, 1839030562, 4259657740,
   2763975236, 1272893353, 4139469664, 3200236656,
   681279174, 3936430074, 3572445317, 76029189,
   3654602809, 3873151461, 530742520, 3299628645,
   4096336452, 1126891415, 2878612391, 4237533241,
   1700485571, 2399980690, 4293915773, 2240044497,
   1873313359, 4264355552, 2734768916, 1309151649,
   4149444226, 3174756917, 718787259, 3951481745]

/-- The 64 per-round left-rotation amounts of MD5. -/
def md5S : List Nat :=
  [7, 12, 17, 22, 7, 12, 17, 22, 7, 12, 17, 22, 7, 12, 17, 22,
   5, 9, 14, 20, 5, 9, 14, 20, 5, 9, 14, 20, 5, 9, 14, 20,
   4, 11, 16, 23, 4, 11, 16, 23, 4, 11, 16, 23, 4, 11, 16, 23,
   6, 10, 15, 21, 6, 10, 15, 21, 6, 10, 15, 21, 6, 10, 15, 21]

/-- 32-bit left rotation. -/
def rotl32 (x s : Nat) : Nat := ((x <<< s) ||| (x >>> (32 - s))) % 4294967296

/-- MD5 round function F. -/
def md5F (b c d : Nat) : Nat := (b &&& c) ||| ((b ^^^ 4294967295) &&& d)

/-- MD5 round function G. -/
def md5G (b c d : Nat) : Nat := (d &&& b) ||| ((d ^^^ 4294967295) &&& c)

/-- MD5 round function H. -/
def md5H (b c d : Nat) : Nat := b ^^^ c ^^^ d

/-- MD5 round function I. -/
def md5I (b c d : Nat) : Nat := c ^^^ (b ||| (d ^^^ 4294967295))

/-- One of the 64 MD5 steps on a 16-word block m. -/
def md5Step (m : List Nat) (st : Nat × Nat × Nat × Nat) (i : Nat) :
    Nat × Nat × Nat × Nat :=
  match st with
  | (a, b, c, d) =>
    let fg : Nat × Nat :=
      if i < 16 then (md5F b c d, i)
      else if i < 32 then (md5G b c d, (5 * i + 1) % 16)
      else if i < 48 then (md5H b c d, (3 * i + 5) % 16)
      else (md5I b c d, (7 * i) % 16)
    let tmp := (a + fg.1 + md5K.getD i 0 + m.getD fg.2 0) % 4294967296
    (d, (b + rotl32 tmp (md5S.getD i 0)) % 4294967296, b, c)

/-- Process one 64-byte block (16 little-endian words). -/
def md5ProcessBlock (st : Nat × Nat × Nat × Nat) (m : List Nat) :
    Nat × Nat × Nat × Nat :=
  match (List.range 64).foldl (md5Step m) st with
  | (a, b, c, d) =>
    ((st.1 + a) % 4294967296, (st.2.1 + b) % 4294967296,
     (st.2.2.1 + c) % 4294967296, (st.2.2.2 + d) % 4294967296)

/-- The k little-endian bytes of n. -/
def bytesLE : Nat → Nat → List Nat
  | 0, _ => []
  | k + 1, n => (n % 256) :: bytesLE k (n / 256)

/-- Group bytes into 32-bit little-endian words. -/
def toWords : List Nat → List Nat
  | b0 :: b1 :: b2 :: b3 :: rest =>
    (b0 + 256 * b1 + 65536 * b2 + 16777216 * b3) :: toWords rest
  | _ => []

/-- MD5 padding: 0x80, zeros to 56 mod 64, 64-bit little-endian bit
length. -/
def padMessage (msg : List Nat) : List Nat :=
  msg ++ [128] ++ List.replicate ((120 - (msg.length + 1) % 64) % 64) 0 ++
    bytesLE 8 ((8 * msg.length) % 18446744073709551616)

/-- Block loop, fuelled by the padded length (one block consumes 16 of
the at most fuel words). -/
def md5Loop : Nat → (Nat × Nat × Nat × Nat) → List Nat → Nat × Nat × Nat × Nat
  | 0, st, _ => st
  | _ + 1, st, [] => st
  | fuel + 1, st, words => md5Loop fuel (md5ProcessBlock st (words.take 16)) (words.drop 16)

/-- The 16 MD5 digest bytes of a byte message. -/
def md5Digest (msg : List Nat) : List Nat :=
  match md5Loop (padMessage msg).length
      (1732584193, 4023233417, 2562383102, 271733878)
      (toWords (padMessage msg)) with
  | (a, b, c, d) => bytesLE 4 a ++ bytesLE 4 b ++ bytesLE 4 c ++ bytesLE 4 d

/-- Lowercase hex characters. -/
def hexChars : List Char := "0123456789abcdef".data

/-- The two hex characters of a byte. -/
def byteToHex (b : Nat) : List Char :=
  [hexChars.getD (b / 16) '0', hexChars.getD (b % 16) '0']

/-- hashlib.md5(...).hexdigest() as a character list. -/
def md5hexChars (msg : List Nat) : List Char :=
  (md5Digest msg).flatMap byteToHex

/-- The MAC computed by start_vm (src/app/operator.py lines 437-440):
52:54: followed by the first six hex digits of MD5(vm_id) split in
pairs, followed by :00. -/
def macFor (vmId : String) : String :=
  String.mk ("52:54:".data ++ (md5hexChars (strBytes vmId)).take 2 ++ [':'] ++
    ((md5hexChars (strBytes vmId)).drop 2).take 2 ++ [':'] ++
    ((md5hexChars (strBytes vmId)).drop 4).take 2 ++ [':'] ++ "00".data)

/-- Per-VM directory writes and the network device argument built by the
TAP path of LocalOperator.start_vm: ip.txt and tap.txt are written
(lines 410-411); start_vm contains no further per-VM file write — in
particular mac.txt is never written anywhere in the repository — and the
computed MAC appears only in the -device command-line argument (lines
442-445). -/
structure StartNetArtifacts where
  ipFileWritten : Bool
  tapFileWritten : Bool
  macFileWritten : Bool
  deviceArg : String
deriving Repr, DecidableEq

/-- The artifacts of the start_vm TAP path for a given vm_id. -/
def start_vm_tap_artifacts (vmId : String) : StartNetArtifacts :=
  { ipFileWritten := true
    tapFileWritten := true
    macFileWritten := false
    deviceArg := "virtio-net,netdev=net0,mac=" ++ macFor vmId }

/-- C7 evaluated at vm_id vm1: the TAP path persists ip.txt and tap.txt
and computes the deterministic MAC 52:54:a8:28:2f:00 (md5("vm1") =
a8282f87...), but persists no MAC artifact: the MAC reaches only the
QEMU command line. -/
theorem vman_c7_mac_not_persisted :
    macFor "vm1" = "52:54:a8:28:2f:00" ∧
    (start_vm_tap_artifacts "vm1").ipFileWritten = true ∧
    (start_vm_tap_artifacts "vm1").tapFileWritten = true ∧
    (start_vm_tap_artifacts "vm1").macFileWritten = false ∧
    (start_vm_tap_artifacts "vm1").deviceArg =
      "virtio-net,netdev=net0,mac=52:54:a8:28:2f:00" := by
  refine ⟨by decide, rfl, rfl, rfl, by decide⟩

/-- File state of a per-VM directory as stop_vm sees it. -/
structure VmFiles where
  pidFile : Bool
  qmpSock : Bool
  tapFile : Option String
  ipFile : Option String
deriving Repr, DecidableEq

/-- Result of a stop_vm call: final file state plus whether the TAP was
deleted and the IP released. -/
structure StopResult where
  files : VmFiles
  tapDeleted : Bool
  ipReleased : Bool
deriving Repr, DecidableEq

/-- LocalOperator.stop_vm (src/app/operator.py lines 497-563).
Parameters describe the process: procAlive is the signal-0 probe at
entry, qmpOk whether the QMP system_powerdown succeeds, gracefulDies /
sigtermDies whether the process exits within the 30 s graceful / 10 s
SIGTERM wait (the ProcessLookupError return behaves like sigtermDies).
The early returns at lines 519-520 (graceful success), 530-531 (SIGTERM
success) and 532-534 leave qmp.sock, tap.txt, ip.txt, the TAP and the IP
untouched; qemu.pid alone disappears because the _is_vm_running probe
unlinks a dead-process pid file.  Only the fall-through SIGKILL path
reaches the cleanup block at lines 545-563. -/
def stop_vm_run (dryRun force hasNM : Bool) (files : VmFiles)
    (procAlive qmpOk gracefulDies sigtermDies : Bool) : StopResult :=
  if dryRun then ⟨files, false, false⟩
  else if ¬ files.pidFile then ⟨files, false, false⟩
  else if ¬ procAlive then ⟨{ files with pidFile := false }, false, false⟩
  else if ¬ force ∧ qmpOk ∧ gracefulDies then
    ⟨{ files with pidFile := false }, false, false⟩
  else if sigtermDies then
    ⟨{ files with pidFile := false }, false, false⟩
  else
    ⟨{ pidFile := false, qmpSock := false,
       tapFile := if hasNM then none else files.tapFile,
       ipFile := if hasNM then none else files.ipFile },
     hasNM && files.tapFile.isSome, hasNM && files.ipFile.isSome⟩

/-- C2 evaluated at the failing input: force-stopping a running TAP VM
whose process dies within the SIGTERM wait returns early, leaving
qmp.sock, tap.txt and ip.txt in place, the TAP not deleted and the IP
not released; the same happens on the graceful-shutdown success path. -/
theorem vman_c2_stop_vm_leaks_on_early_return :
    (stop_vm_run false true true ⟨true, true, some "tap-vm1", some "192.168.100.2"⟩
        true true true true =
      ⟨⟨false, true, some "tap-vm1", some "192.168.100.2"⟩, false, false⟩) ∧
    (stop_vm_run false false true ⟨true, true, some "tap-vm1", some "192.168.100.2"⟩
        true true true false =
      ⟨⟨false, true, some "tap-vm1", some "192.168.100.2"⟩, false, false⟩) ∧
    (stop_vm_run false true true ⟨true, true, some "tap-vm1", some "192.168.100.2"⟩
        true true true false =
      ⟨⟨false, false, none, none⟩, true, true⟩) := by
  refine ⟨by decide, by decide, by decide⟩

/-- The base64 alphabet used by python base64.b64encode. -/
def b64Chars : List Char :=
  "ABCDEFGHIJKLMNOPQRSTUVWXYZabcdefghijklmnopqrstuvwxyz0123456789+/".data

def b64enc (n : Nat) : Char := b64Chars.getD n 'A'

def b64encodeBytes : List Nat → List Char
  | [] => []
  | [a] => [b64enc (a / 4), b64enc (a % 4 * 16), '=', '=']
  | [a, b] => [b64enc (a / 4), b64enc (a % 4 * 16 + b / 16), b64enc (b % 16 * 4), '=']
  | a :: b :: c :: rest =>
    b64enc (a / 4) :: b64enc (a % 4 * 16 + b / 16) :: b64enc (b % 16 * 4 + c / 64) ::
      b64enc (c % 64) :: b64encodeBytes rest

def b64dec (c : Char) : Nat := b64Chars.indexOf c

def b64decodeChars : List Char → List Nat
  | c0 :: c1 :: c2 :: c3 :: rest =>
    if c2 = '=' then [b64dec c0 * 4 + b64dec c1 / 16]
    else if c3 = '=' then
      [b64dec c0 * 4 + b64dec c1 / 16, b64dec c1 % 16 * 16 + b64dec c2 / 4]
    else (b64dec c0 * 4 + b64dec c1 / 16) :: (b64dec c1 % 16 * 16 + b64dec c2 / 4) ::
      (b64dec c2 % 4 * 64 + b64dec c3) :: b64decodeChars rest
  | _ => []


theorem b64dec_enc : ∀ n < 64, b64dec (b64enc n) = n := by decide

theorem b64enc_ne_pad : ∀ n < 64, b64enc n ≠ '=' := by decide

theorem b64decode_pad2 (c0 c1 : Char) :
    b64decodeChars [c0, c1, '=', '='] = [b64dec c0 * 4 + b64dec c1 / 16] := by
  simp only [b64decodeChars]
  rw [if_true]

theorem b64decode_pad1 (c0 c1 c2 : Char) (h : c2 ≠ '=') :
    b64decodeChars [c0, c1, c2, '='] =
      [b64dec c0 * 4 + b64dec c1 / 16, b64dec c1 % 16 * 16 + b64dec c2 / 4] := by
  simp only [b64decodeChars]
  rw [if_neg h, if_true]

theorem b64decode_cons (c0 c1 c2 c3 : Char) (rest : List Char)
    (h2 : c2 ≠ '=') (h3 : c3 ≠ '=') :
    b64decodeChars (c0 :: c1 :: c2 :: c3 :: rest) =
      (b64dec c0 * 4 + b64dec c1 / 16) :: (b64dec c1 % 16 * 16 + b64dec c2 / 4) ::
        (b64dec c2 % 4 * 64 + b64dec c3) :: b64decodeChars rest := by
  simp only [b64decodeChars]
  rw [if_neg h2, if_neg h3]

theorem b64byte0 (a b : Nat) (ha : a < 256) (hb : b < 256) :
    a / 4 * 4 + (a % 4 * 16 + b / 16) / 16 = a := by
  rw [Nat.mul_comm (a % 4) 16, Nat.mul_add_div (by norm_num)]
  have h1 : b / 16 / 16 = 0 := by omega
  omega

theorem b64byte1 (a b c : Nat) (ha : a < 256) (hb : b < 256) (hc : c < 256) :
    (a % 4 * 16 + b / 16) % 16 * 16 + (b % 16 * 4 + c / 64) / 4 = b := by
  rw [Nat.mul_comm (a % 4) 16, Nat.mul_add_mod, Nat.mul_comm (b % 16) 4,
    Nat.mul_add_div (by norm_num)]
  have h1 : b / 16 % 16 = b / 16 := Nat.mod_eq_of_lt (by omega)
  have h2 : c / 64 / 4 = 0 := by omega
  omega

theorem b64byte2 (b c : Nat) (hb : b < 256) (hc : c < 256) :
    (b % 16 * 4 + c / 64) % 4 * 64 + c % 64 = c := by
  rw [Nat.mul_comm (b % 16) 4, Nat.mul_add_mod]
  have h1 : c / 64 % 4 = c / 64 := Nat.mod_eq_of_lt (by omega)
  omega

theorem b64byte0p (a : Nat) (ha : a < 256) : a / 4 * 4 + a % 4 * 16 / 16 = a := by
  have h1 : a % 4 * 16 / 16 = a % 4 := by
    rw [Nat.mul_comm (a % 4) 16]
    exact Nat.mul_div_cancel_left _ (by norm_num)
  omega

theorem b64byte1p (a b : Nat) (ha : a < 256) (hb : b < 256) :
    (a % 4 * 16 + b / 16) % 16 * 16 + b % 16 * 4 / 4 = b := by
  rw [Nat.mul_comm (a % 4) 16, Nat.mul_add_mod]
  have h1 : b % 16 * 4 / 4 = b % 16 := by
    rw [Nat.mul_comm (b % 16) 4]
    exact Nat.mul_div_cancel_left _ (by norm_num)
  have h2 : b / 16 % 16 = b / 16 := Nat.mod_eq_of_lt (by omega)
  omega

theorem b64_roundtrip : (bs : List Nat) → (∀ b ∈ bs, b < 256) →
    b64decodeChars (b64encodeBytes bs) = bs
  | [], _ => rfl
  | [a], h => by
    have ha : a < 256 := h a (by simp)
    rw [show b64encodeBytes [a] = [b64enc (a / 4), b64enc (a % 4 * 16), '=', '='] from rfl,
      b64decode_pad2, b64dec_enc _ (by omega), b64dec_enc _ (by omega)]
    simp only [List.cons.injEq, and_true]
    exact b64byte0p a ha
  | [a, b], h => by
    have ha : a < 256 := h a (by simp)
    have hb : b < 256 := h b (by simp)
    rw [show b64encodeBytes [a, b] =
        [b64enc (a / 4), b64enc (a % 4 * 16 + b / 16), b64enc (b % 16 * 4), '='] from rfl,
      b64decode_pad1 _ _ _ (b64enc_ne_pad _ (by omega)),
      b64dec_enc _ (by omega), b64dec_enc _ (by omega), b64dec_enc _ (by omega)]
    simp only [List.cons.injEq, and_true]
    exact ⟨b64byte0 a b ha hb, b64byte1p a b ha hb⟩
  | [a, b, c], h => by
    have ha : a < 256 := h a (by simp)
    have hb : b < 256 := h b (by simp)
    have hc : c < 256 := h c (by simp)
    rw [show b64encodeBytes [a, b, c] =
        [b64enc (a / 4), b64enc (a % 4 * 16 + b / 16), b64enc (b % 16 * 4 + c / 64),
          b64enc (c % 64)] from rfl,
      b64decode_cons _ _ _ _ _ (b64enc_ne_pad _ (by omega)) (b64enc_ne_pad _ (by omega)),
      b64dec_enc _ (by omega), b64dec_enc _ (by omega), b64dec_enc _ (by omega),
      b64dec_enc _ (by omega)]
    simp only [List.cons.injEq]
    exact ⟨b64byte0 a b ha hb, b64byte1 a b c ha hb hc, b64byte2 b c hb hc, rfl⟩
  | a :: b :: c :: d :: rest, h => by
    have ha : a < 256 := h a (by simp)
    have hb : b < 256 := h b (by simp)
    have hc : c < 256 := h c (by simp)
    have ih := b64_roundtrip (d :: rest) (fun x hx => h x (by simp at hx ⊢; tauto))
    rw [show b64encodeBytes (a :: b :: c :: d :: rest) =
        b64enc (a / 4) :: b64enc (a % 4 * 16 + b / 16) :: b64enc (b % 16 * 4 + c / 64) ::
          b64enc (c % 64) :: b64encodeBytes (d :: rest) from rfl,
      b64decode_cons _ _ _ _ _ (b64enc_ne_pad _ (by omega)) (b64enc_ne_pad _ (by omega)),
      b64dec_enc _ (by omega), b64dec_enc _ (by omega), b64dec_enc _ (by omega),
      b64dec_enc _ (by omega), ih]
    simp only [List.cons.injEq, and_true]
    exact ⟨b64byte0 a b ha hb, b64byte1 a b c ha hb hc, b64byte2 b c hb hc⟩

/-- Bytes produced by the UTF-8 encoder are below 256 for any valid
code point. -/
theorem utf8Bytes_lt (c : Nat) (hc : c < 1114112) : ∀ b ∈ utf8Bytes c, b < 256 := by
  intro b hb
  unfold utf8Bytes at hb
  by_cases h1 : c < 128
  · rw [if_pos h1] at hb
    simp at hb
    omega
  · rw [if_neg h1] at hb
    by_cases h2 : c < 2048
    · rw [if_pos h2] at hb
      simp at hb
      rcases hb with rfl | rfl <;> omega
    · rw [if_neg h2] at hb
      by_cases h3 : c < 65536
      · rw [if_pos h3] at hb
        simp at hb
        rcases hb with rfl | rfl | rfl <;> omega
      · rw [if_neg h3] at hb
        simp at hb
        rcases hb with rfl | rfl | rfl | rfl <;> omega

/-- Unicode code points are below 0x110000. -/
theorem char_toNat_lt (c : Char) : c.toNat < 1114112 := by
  rcases c.valid with h | h
  · exact Nat.lt_trans h (by norm_num)
  · exact h.2

/-- Every byte of a UTF-8 encoded string is below 256. -/
theorem strBytes_lt (s : String) : ∀ b ∈ strBytes s, b < 256 := by
  intro b hb
  unfold strBytes at hb
  rw [List.mem_flatMap] at hb
  obtain ⟨ch, _, hb2⟩ := hb
  exact utf8Bytes_lt ch.toNat (char_toNat_lt ch) b hb2

/-- Row of the vm_metadata table (src/app/models.py, class VMMetadata;
timestamps omitted). -/
structure VMMetadataRow where
  vm_id : String
  hostname : Option String
  user_data : Option String
  ssh_keys : Option String
deriving Repr, DecidableEq

/-- The user-data branch of
MetadataRequestHandler._handle_metadata_request (src/app/metadata_service.py
lines 149-154): base64 of the UTF-8 bytes of user_data when the metadata
row exists and user_data is truthy, else the empty string. -/
def userDataResponse (metadata : Option VMMetadataRow) : String :=
  match metadata with
  | some md =>
    match md.user_data with
    | some ud => if ud = "" then "" else String.mk (b64encodeBytes (strBytes ud))
    | none => ""
  | none => ""

/-- C6: the body served for /latest/user-data is the base64 encoding of
the stored user_data, so base64-decoding the response recovers exactly
the stored bytes; the body is empty when no metadata row or no user_data
is stored. -/
theorem vman_c6_user_data_roundtrip (mdOpt : Option VMMetadataRow) :
    (∀ md ud, mdOpt = some md → md.user_data = some ud →
      (userDataResponse mdOpt).data = b64encodeBytes (strBytes ud) ∧
      b64decodeChars (userDataResponse mdOpt).data = strBytes ud) ∧
    (mdOpt = none → userDataResponse mdOpt = "") ∧
    (∀ md, mdOpt = some md → md.user_data = none → userDataResponse mdOpt = "") := by
  refine ⟨?_, ?_, ?_⟩
  · intro md ud h1 h2
    subst h1
    obtain ⟨vmid, hn, udf, sk⟩ := md
    have h3 : udf = some ud := h2
    subst h3
    have henc : (userDataResponse (some ⟨vmid, hn, some ud, sk⟩)).data =
        b64encodeBytes (strBytes ud) := by
      simp only [userDataResponse]
      by_cases he : ud = ""
      · subst he
        rw [if_pos rfl]
        rfl
      · rw [if_neg he]
    exact ⟨henc, by rw [henc]; exact b64_roundtrip (strBytes ud) (strBytes_lt ud)⟩
  · intro h
    subst h
    rfl
  · intro md h1 h2
    subst h1
    obtain ⟨vmid, hn, udf, sk⟩ := md
    have h3 : udf = none := h2
    subst h3
    rfl

/-- Witness for C6 with stored user_data hi. -/
theorem vman_c6_user_data_roundtrip_witness :
    b64decodeChars (userDataResponse (some ⟨"vm1", none, some "hi", none⟩)).data =
      strBytes "hi" :=
  ((vman_c6_user_data_roundtrip (some ⟨"vm1", none, some "hi", none⟩)).1
    ⟨"vm1", none, some "hi", none⟩ "hi" rfl rfl).2

/-- The character class [0-9a-f:] of the regex in
MetadataRequestHandler._extract_mac_from_path (src/app/metadata_service.py
line 80): digits, lowercase a-f, and the colon; case-sensitive. -/
def isMacChar (c : Char) : Bool :=
  (decide (48 ≤ c.toNat) && decide (c.toNat ≤ 57)) ||
  (decide (97 ≤ c.toNat) && decide (c.toNat ≤ 102)) || decide (c.toNat = 58)

/-- Match of the regex /macs/([0-9a-f:]\x7b17\x7d)/ anchored at the head
of l: the literal /macs/, exactly 17 class characters (the group), then
a slash. -/
def matchMacAt (l : List Char) : Option (List Char) :=
  if l.take 6 = "/macs/".data ∧ ((l.drop 6).take 17).length = 17 ∧
      ((l.drop 6).take 17).all isMacChar = true ∧ (l.drop 23).head? = some '/' then
    some ((l.drop 6).take 17)
  else none

/-- re.search: try the anchored match at every position left to right. -/
def searchMacAux : List Char → Option (List Char)
  | [] => none
  | c :: cs =>
    match matchMacAt (c :: cs) with
    | some m => some m
    | none => searchMacAux cs

/-- MetadataRequestHandler._extract_mac_from_path (lines 74-83): search
the path for the pattern and return the lowercased group. -/
def extract_mac_from_path (path : String) : Option String :=
  (searchMacAux path.data).map (fun m => String.mk (m.map Char.toLower))

theorem take_left_eq {α : Type} (l1 l2 : List α) (n : Nat) (h : l1.length = n) :
    (l1 ++ l2).take n = l1 := by
  subst h
  exact List.take_left l1 l2

theorem drop_left_eq {α : Type} (l1 l2 : List α) (n : Nat) (h : l1.length = n) :
    (l1 ++ l2).drop n = l2 := by
  subst h
  exact List.drop_left l1 l2

theorem matchMacAt_some (l m : List Char) (h : matchMacAt l = some m) :
    m.length = 17 ∧ m.all isMacChar = true ∧
      ∃ post, l = "/macs/".data ++ (m ++ '/' :: post) := by
  unfold matchMacAt at h
  by_cases hc : l.take 6 = "/macs/".data ∧ ((l.drop 6).take 17).length = 17 ∧
      ((l.drop 6).take 17).all isMacChar = true ∧ (l.drop 23).head? = some '/'
  · rw [if_pos hc] at h
    obtain ⟨h1, h2, h3, h4⟩ := hc
    have hm : m = (l.drop 6).take 17 := by
      cases h
      rfl
    subst hm
    refine ⟨h2, h3, ?_⟩
    have hd : l.drop 23 = ((l.drop 6).drop 17) := by
      rw [List.drop_drop]
    cases h23 : l.drop 23 with
    | nil =>
      rw [h23] at h4
      cases h4
    | cons a t =>
      rw [h23] at h4
      have ha : a = '/' := by
        simpa using h4
      subst ha
      refine ⟨t, ?_⟩
      calc l = l.take 6 ++ l.drop 6 := (List.take_append_drop 6 l).symm
        _ = "/macs/".data ++ ((l.drop 6).take 17 ++ (l.drop 6).drop 17) := by
            rw [h1, List.take_append_drop]
        _ = "/macs/".data ++ ((l.drop 6).take 17 ++ ('/' :: t)) := by
            rw [← hd, h23]
        _ = "/macs/".data ++ (((l.drop 6).take 17) ++ '/' :: t) := rfl
  · rw [if_neg hc] at h
    cases h

theorem matchMacAt_build (m : List Char) (post : List Char)
    (h17 : m.length = 17) (hall : m.all isMacChar = true) :
    matchMacAt ("/macs/".data ++ (m ++ '/' :: post)) = some m := by
  have t1 : ("/macs/".data ++ (m ++ '/' :: post)).take 6 = "/macs/".data :=
    take_left_eq _ _ 6 rfl
  have t2 : ("/macs/".data ++ (m ++ '/' :: post)).drop 6 = m ++ '/' :: post :=
    drop_left_eq _ _ 6 rfl
  have t3 : (("/macs/".data ++ (m ++ '/' :: post)).drop 6).take 17 = m := by
    rw [t2]
    exact take_left_eq _ _ 17 h17
  have t4 : ("/macs/".data ++ (m ++ '/' :: post)).drop 23 = '/' :: post := by
    rw [← List.drop_drop 17 6, t2]
    exact drop_left_eq _ _ 17 h17
  have hcond : ("/macs/".data ++ (m ++ '/' :: post)).take 6 = "/macs/".data ∧
      ((("/macs/".data ++ (m ++ '/' :: post)).drop 6).take 17).length = 17 ∧
      ((("/macs/".data ++ (m ++ '/' :: post)).drop 6).take 17).all isMacChar = true ∧
      (("/macs/".data ++ (m ++ '/' :: post)).drop 23).head? = some '/' := by
    refine ⟨t1, ?_, ?_, ?_⟩
    · rw [t3]
      exact h17
    · rw [t3]
      exact hall
    · rw [t4]
      rfl
  unfold matchMacAt
  rw [if_pos hcond, t3]

theorem searchMacAux_some (l m : List Char) (h : searchMacAux l = some m) :
    m.length = 17 ∧ m.all isMacChar = true ∧
      ∃ pre post, l = pre ++ ("/macs/".data ++ (m ++ '/' :: post)) := by
  induction l with
  | nil => cases h
  | cons c cs ih =>
    simp only [searchMacAux] at h
    cases hm : matchMacAt (c :: cs) with
    | some m0 =>
      rw [hm] at h
      have hm0 : m0 = m := by
        cases h
        rfl
      subst hm0
      obtain ⟨h17, hall, post, hdec⟩ := matchMacAt_some _ _ hm
      exact ⟨h17, hall, [], post, by rw [hdec]; rfl⟩
    | none =>
      rw [hm] at h
      obtain ⟨h17, hall, pre, post, hdec⟩ := ih h
      exact ⟨h17, hall, c :: pre, post, by rw [hdec]; rfl⟩

theorem searchMacAux_build (pre m post : List Char)
    (h17 : m.length = 17) (hall : m.all isMacChar = true) :
    (searchMacAux (pre ++ ("/macs/".data ++ (m ++ '/' :: post)))).isSome = true := by
  induction pre with
  | nil =>
    have hsplit : ("/macs/".data ++ (m ++ '/' :: post)) =
        '/' :: ("macs/".data ++ (m ++ '/' :: post)) := rfl
    rw [List.nil_append, hsplit]
    simp only [searchMacAux]
    rw [← hsplit, matchMacAt_build m post h17 hall]
    rfl
  | cons p ps ih =>
    rw [List.cons_append]
    simp only [searchMacAux]
    cases hm : matchMacAt (p :: (ps ++ ("/macs/".data ++ (m ++ '/' :: post)))) with
    | some m0 => rfl
    | none => exact ih

theorem toLower_macChar (c : Char) (h : isMacChar c = true) : c.toLower = c := by
  simp only [isMacChar, Bool.or_eq_true, Bool.and_eq_true, decide_eq_true_eq] at h
  unfold Char.toLower
  rw [if_neg]
  simp only [Bool.and_eq_true, decide_eq_true_eq, not_and]
  intro h1
  omega

theorem map_toLower_macChars (m : List Char) (h : m.all isMacChar = true) :
    m.map Char.toLower = m := by
  induction m with
  | nil => rfl
  | cons c cs ih =>
    rw [List.all_cons, Bool.and_eq_true] at h
    rw [List.map_cons, toLower_macChar c h.1, ih h.2]

/-- Guest resolution of MetadataRequestHandler.do_GET (lines 41-53):
source-IP lookup first, then MAC extracted from the path. -/
def metadataResolve (ipMatch : Option VMRow) (macLookup : String → Option VMRow)
    (path : String) : Option VMRow :=
  match ipMatch with
  | some vm => some vm
  | none =>
    match extract_mac_from_path path with
    | some mac => macLookup mac
    | none => none

/-- Status of do_GET: 404 when no VM resolves, else the handler body
decides 200 or 404. -/
def do_GET_status (resolved : Option VMRow) (body : Option String) : Nat :=
  match resolved with
  | none => 404
  | some _ =>
    match body with
    | some _ => 200
    | none => 404

/-- C8 (amended): when IP resolution fails, a MAC is extracted from the
path exactly when the path contains /macs/ followed by exactly 17
characters from the class [0-9a-f:] followed by /, matched
case-sensitively (not the stricter case-insensitive colon-separated-pairs
pattern the claim states); the extracted MAC is that 17-character group
(lowercasing it is the identity); requests resolving to no VM by either
IP or MAC receive 404. -/
theorem vman_c8_mac_extraction :
    (∀ l m, searchMacAux l = some m →
      m.length = 17 ∧ m.all isMacChar = true ∧
        ∃ pre post, l = pre ++ ("/macs/".data ++ (m ++ '/' :: post))) ∧
    (∀ pre m post, m.length = 17 → m.all isMacChar = true →
      (searchMacAux (pre ++ ("/macs/".data ++ (m ++ '/' :: post)))).isSome = true) ∧
    (∀ path m, searchMacAux path.data = some m →
      extract_mac_from_path path = some (String.mk m)) ∧
    (∀ (macLookup : String → Option VMRow) (path : String) (body : Option String),
      metadataResolve none macLookup path = none →
      do_GET_status (metadataResolve none macLookup path) body = 404) := by
  refine ⟨searchMacAux_some, searchMacAux_build, ?_, ?_⟩
  · intro path m h
    unfold extract_mac_from_path
    rw [h]
    obtain ⟨_, hall, _⟩ := searchMacAux_some _ _ h
    show some (String.mk (m.map Char.toLower)) = some (String.mk m)
    rw [map_toLower_macChars m hall]
  · intro macLookup path body h
    rw [h]
    rfl

/-- Witness for C8: a path holding a lowercase MAC is matched. -/
theorem vman_c8_mac_extraction_witness :
    (searchMacAux ("latest/meta-data/network/interfaces".data ++
      ("/macs/".data ++ ("52:54:aa:bb:cc:00".data ++ '/' :: "mac".data)))).isSome = true :=
  vman_c8_mac_extraction.2.1 "latest/meta-data/network/interfaces".data
    "52:54:aa:bb:cc:00".data "mac".data (by decide) (by decide)

/-- Modelled from the spec: the regex the claim states,
/macs/([0-9a-f]\x7b2\x7d(:[0-9a-f]\x7b2\x7d)\x7b5\x7d)/ matched
case-insensitively — six case-insensitive hex pairs separated by colons.
Defined only to compare with the code regex. -/
def isSpecHexChar (c : Char) : Bool :=
  (decide (48 ≤ c.toNat) && decide (c.toNat ≤ 57)) ||
  (decide (97 ≤ c.toNat) && decide (c.toNat ≤ 102)) ||
  (decide (65 ≤ c.toNat) && decide (c.toNat ≤ 70))

/-- Modelled from the spec: shape of the claimed regex group. -/
def specMacShape : List Char → Bool
  | [a1, a2, ':', b1, b2, ':', c1, c2, ':', d1, d2, ':', e1, e2, ':', f1, f2] =>
    isSpecHexChar a1 && isSpecHexChar a2 && isSpecHexChar b1 && isSpecHexChar b2 &&
    isSpecHexChar c1 && isSpecHexChar c2 && isSpecHexChar d1 && isSpecHexChar d2 &&
    isSpecHexChar e1 && isSpecHexChar e2 && isSpecHexChar f1 && isSpecHexChar f2
  | _ => false

/-- Modelled from the spec: anchored match of the claimed regex. -/
def specMatchAt (l : List Char) : Option (List Char) :=
  if l.take 6 = "/macs/".data ∧ specMacShape ((l.drop 6).take 17) = true ∧
      (l.drop 23).head? = some '/' then some ((l.drop 6).take 17)
  else none

/-- Modelled from the spec: search of the claimed regex. -/
def specSearchMac : List Char → Option (List Char)
  | [] => none
  | c :: cs =>
    match specMatchAt (c :: cs) with
    | some m => some m
    | none => specSearchMac cs

/-- Path of the C8 counterexample: an uppercase MAC. -/
def cexMacPath : String :=
  "latest/meta-data/network/interfaces/macs/52:54:AA:BB:CC:00/mac"

/-- Counterexample to C8 as stated: the claimed case-insensitive regex
matches the uppercase MAC in the path, but the code extracts nothing
(its class is lowercase-only) — so extraction does not happen exactly
when the claimed regex matches. -/
theorem vman_c8_counterexample :
    specSearchMac cexMacPath.data = some "52:54:AA:BB:CC:00".data ∧
    extract_mac_from_path cexMacPath = none := by
  refine ⟨by decide, by decide⟩

/-- Request body for PUT /vms/id/metadata: optional fields; an absent
field is not changed by the write. -/
structure MetadataPayload where
  hostname : Option String
  user_data : Option String
  ssh_keys : Option String
deriving Repr, DecidableEq

/-- Inventory slice the metadata endpoints touch: VM rows and metadata
rows keyed one-to-one by vm_id. -/
structure MetaState where
  vms : List VMRow
  rows : List VMMetadataRow
deriving Repr, DecidableEq

/-- Lookup of the metadata row of a VM. -/
def findMeta (rows : List VMMetadataRow) (vmId : String) : Option VMMetadataRow :=
  rows.find? (fun r => r.vm_id == vmId)

/-- A metadata row with all fields cleared. -/
def emptyMetaRow (vmId : String) : VMMetadataRow :=
  { vm_id := vmId, hostname := none, user_data := none, ssh_keys := none }

/-- Partial upsert of a payload into a row: only provided fields
change. -/
def mergeRow (old : VMMetadataRow) (p : MetadataPayload) : VMMetadataRow :=
  { vm_id := old.vm_id,
    hostname := match p.hostname with | some v => some v | none => old.hostname,
    user_data := match p.user_data with | some v => some v | none => old.user_data,
    ssh_keys := match p.ssh_keys with | some v => some v | none => old.ssh_keys }

/-- Modelled from the spec: the handler for GET /vms/id/metadata is
absent from src/app/main.py (only tests/test_metadata_api.py calls it).
Per the spec the CRUD is keyed by vm_id with 404 for an unknown VM and
200 on success; a VM without a stored row reads as empty fields. -/
def get_metadata (st : MetaState) (vmId : String) : Nat × Option VMMetadataRow :=
  match st.vms.find? (fun v => v.id == vmId) with
  | none => (404, none)
  | some _ => (200, some ((findMeta st.rows vmId).getD (emptyMetaRow vmId)))

/-- Modelled from the spec: the handler for PUT /vms/id/metadata is
absent from src/app/main.py.  Per the spec the write is an upsert in
which only the provided fields change; 404 for an unknown VM, 200 on
success. -/
def put_metadata (st : MetaState) (vmId : String) (p : MetadataPayload) :
    Nat × MetaState :=
  match st.vms.find? (fun v => v.id == vmId) with
  | none => (404, st)
  | some _ =>
    match findMeta st.rows vmId with
    | some old =>
      (200, { st with rows := st.rows.map (fun r =>
        if r.vm_id == vmId then mergeRow old p else r) })
    | none => (200, { st with rows := st.rows ++ [mergeRow (emptyMetaRow vmId) p] })

/-- Modelled from the spec: the handler for DELETE /vms/id/metadata is
absent from src/app/main.py.  Per the spec it clears the metadata fields
but does not delete the VM; 404 for an unknown VM, 204 on success. -/
def delete_metadata (st : MetaState) (vmId : String) : Nat × MetaState :=
  match st.vms.find? (fun v => v.id == vmId) with
  | none => (404, st)
  | some _ =>
    (204, { st with rows := st.rows.map (fun r =>
      if r.vm_id == vmId then emptyMetaRow vmId else r) })

theorem find?_map_update_key (l : List VMMetadataRow) (vmId : String)
    (f : VMMetadataRow → VMMetadataRow)
    (hf : ∀ r, r.vm_id = vmId → (f r).vm_id = vmId) :
    (l.map (fun r => if r.vm_id == vmId then f r else r)).find?
        (fun r => r.vm_id == vmId)
      = (l.find? (fun r => r.vm_id == vmId)).map f := by
  induction l with
  | nil => rfl
  | cons a t ih =>
    by_cases h : (a.vm_id == vmId) = true
    · have h2 : ((f a).vm_id == vmId) = true := by
        rw [hf a (beq_iff_eq.mp h)]
        exact beq_self_eq_true vmId
      simp [List.find?, h2, h]
    · have h3 : (a.vm_id == vmId) = false := by
        cases hb : (a.vm_id == vmId) with
        | true => exact absurd hb h
        | false => rfl
      simp only [List.map_cons, List.find?, h3, Bool.false_eq_true, if_false]
      exact ih

theorem find?_append_single (l : List VMMetadataRow) (r : VMMetadataRow)
    (p2 : VMMetadataRow → Bool) (h : l.find? p2 = none) (hr : p2 r = true) :
    (l ++ [r]).find? p2 = some r := by
  induction l with
  | nil =>
    simp only [List.nil_append, List.find?, hr]
  | cons a t ih =>
    have ha := List.find?_eq_none.mp h a (by simp)
    have ha2 : p2 a = false := by
      cases hb : p2 a with
      | true => exact absurd hb ha
      | false => rfl
    have ht : t.find? p2 = none := by
      rw [List.find?_eq_none]
      intro x hx
      exact List.find?_eq_none.mp h x (by simp [hx])
    simp only [List.cons_append, List.find?, ha2]
    exact ih ht

/-- C5: the metadata CRUD is keyed by vm_id; each endpoint returns 404
for an unknown VM id; PUT is an upsert in which only the provided fields
change; DELETE clears the metadata fields but leaves the VM row;
successful responses are 200 (GET, PUT) and 204 (DELETE). -/
theorem vman_c5_metadata_crud (st : MetaState) (vmId : String) (p : MetadataPayload) :
    (st.vms.find? (fun v => v.id == vmId) = none →
      (get_metadata st vmId).1 = 404 ∧ put_metadata st vmId p = (404, st) ∧
      delete_metadata st vmId = (404, st)) ∧
    (∀ vm, st.vms.find? (fun v => v.id == vmId) = some vm →
      (get_metadata st vmId).1 = 200 ∧
      (put_metadata st vmId p).1 = 200 ∧
      (delete_metadata st vmId).1 = 204 ∧
      findMeta (put_metadata st vmId p).2.rows vmId =
        some (mergeRow ((findMeta st.rows vmId).getD (emptyMetaRow vmId)) p) ∧
      (put_metadata st vmId p).2.vms = st.vms ∧
      (delete_metadata st vmId).2.vms = st.vms ∧
      (∀ r ∈ (delete_metadata st vmId).2.rows, r.vm_id = vmId →
        r.hostname = none ∧ r.user_data = none ∧ r.ssh_keys = none)) := by
  constructor
  · intro h
    unfold get_metadata put_metadata delete_metadata
    rw [h]
    exact ⟨rfl, rfl, rfl⟩
  · intro vm hvm
    have hget : (get_metadata st vmId).1 = 200 := by
      unfold get_metadata
      rw [hvm]
    have hdel : delete_metadata st vmId =
        (204, { st with rows := st.rows.map (fun r =>
          if r.vm_id == vmId then emptyMetaRow vmId else r) }) := by
      unfold delete_metadata
      rw [hvm]
    refine ⟨hget, ?_, by rw [hdel], ?_, ?_, by rw [hdel], ?_⟩
    · unfold put_metadata
      rw [hvm]
      cases hm : findMeta st.rows vmId with
      | some old => rfl
      | none => rfl
    · unfold put_metadata
      rw [hvm]
      cases hm : findMeta st.rows vmId with
      | some old =>
        have hold : old.vm_id = vmId := by
          have h2 := List.find?_some hm
          simpa using h2
        have key := find?_map_update_key st.rows vmId (fun _ => mergeRow old p)
          (fun r _ => hold)
        have hm2 : st.rows.find? (fun r => r.vm_id == vmId) = some old := hm
        rw [hm2] at key
        exact key
      | none =>
        exact find?_append_single st.rows (mergeRow (emptyMetaRow vmId) p)
          (fun r => r.vm_id == vmId) hm (beq_self_eq_true vmId)
    · unfold put_metadata
      rw [hvm]
      cases hm : findMeta st.rows vmId with
      | some old => rfl
      | none => rfl
    · rw [hdel]
      intro r hr hid
      simp only [List.mem_map] at hr
      obtain ⟨r0, hr0, rfl⟩ := hr
      by_cases h0 : (r0.vm_id == vmId) = true
      · rw [if_pos h0]
        exact ⟨rfl, rfl, rfl⟩
      · rw [if_neg h0] at hid ⊢
        exact absurd (beq_iff_eq.mpr hid) h0

/-- Concrete state for the C5 witness: one VM, no metadata rows. -/
def metaStEx : MetaState := { vms := [vm1Ex], rows := [] }

/-- Witness for C5 at metaStEx: a PUT creating the row. -/
theorem vman_c5_metadata_crud_witness :
    (get_metadata metaStEx "vm1").1 = 200 ∧
    (put_metadata metaStEx "vm1" ⟨some "host1", none, none⟩).1 = 200 ∧
    (delete_metadata metaStEx "vm1").1 = 204 ∧
    findMeta (put_metadata metaStEx "vm1" ⟨some "host1", none, none⟩).2.rows "vm1" =
      some (mergeRow ((findMeta metaStEx.rows "vm1").getD (emptyMetaRow "vm1"))
        ⟨some "host1", none, none⟩) ∧
    (put_metadata metaStEx "vm1" ⟨some "host1", none, none⟩).2.vms = metaStEx.vms ∧
    (delete_metadata metaStEx "vm1").2.vms = metaStEx.vms ∧
    (∀ r ∈ (delete_metadata metaStEx "vm1").2.rows, r.vm_id = "vm1" →
      r.hostname = none ∧ r.user_data = none ∧ r.ssh_keys = none) :=
  (vman_c5_metadata_crud metaStEx "vm1" ⟨some "host1", none, none⟩).2 vm1Ex (by decide)

end VMan
